import Mathlib

/-!
Shallow embedding of the layout/routing core of `bad.py` (Box-and-Arrow
Diagram tool).  Python floats are modelled as rationals; the text
measurement service (PIL) is an external collaborator and is modelled as
a function parameter.  Each definition is annotated with the source
lines it translates.
-/

/-- 2D vector with componentwise arithmetic, translated from class
Vector2 (bad.py lines 17-50). -/
structure Vector2 where
  x : ℚ
  y : ℚ
  deriving DecidableEq, Repr

/-- Vector + Vector branch of Vector2.__add__ (line 24). -/
def Vector2.add (a b : Vector2) : Vector2 := ⟨a.x + b.x, a.y + b.y⟩

/-- Vector + scalar branch of Vector2.__add__ (line 26). -/
def Vector2.addScalar (a : Vector2) (s : ℚ) : Vector2 := ⟨a.x + s, a.y + s⟩

/-- Componentwise Vector * Vector branch of Vector2.__mul__ (line 36). -/
def Vector2.mul (a b : Vector2) : Vector2 := ⟨a.x * b.x, a.y * b.y⟩

/-- Componentwise maximum, Vector2.max (lines 49-50). -/
def Vector2.max (a b : Vector2) : Vector2 := ⟨Max.max a.x b.x, Max.max a.y b.y⟩

/-- Swap the two components; used to state the axis-duality law between
the two layout variants. -/
def Vector2.swap (v : Vector2) : Vector2 := ⟨v.y, v.x⟩

/-- Anchor direction tag (bad.py lines 134-137). -/
inductive AnchorDirection where
  | NONE
  | VERTICAL
  | HORIZONTAL
  deriving DecidableEq, Repr

/-- Layout alignment (bad.py lines 86-89). -/
inductive LayoutAlignment where
  | START
  | CENTER
  | END
  deriving DecidableEq, Repr

/-- LayoutStyle (bad.py lines 91-96). -/
structure LayoutStyle where
  margin : ℚ
  padding : ℚ
  gap : ℚ
  alignment : LayoutAlignment
  deriving DecidableEq, Repr

/-- A child of a layout, as the layout algorithm sees it: its size, its
style margin, whether its position is automatic, and its (mutable)
position.  Children are modelled as already-updated bounded elements, so
the recursive `child.update()` at line 213 leaves these fields fixed. -/
structure Child where
  size : Vector2
  margin : ℚ
  automatic : Bool
  pos : Vector2
  deriving DecidableEq, Repr

/-- Swap the axes of a child (size and position), for the duality law. -/
def Child.swap (c : Child) : Child :=
  { size := c.size.swap, margin := c.margin, automatic := c.automatic,
    pos := c.pos.swap }

/-- Child x-margin used by VerticalLayout: max(child.style.margin,
self.style.padding) (bad.py lines 409 and 429). -/
def layoutChildXMargin (st : LayoutStyle) (c : Child) : ℚ :=
  Max.max c.margin st.padding

/-- Horizontal pass of VerticalLayout.update (bad.py lines 406-410):
fold max(bound, child.width + 2 * child_x_margin) over automatic
children, starting from the layout's current width. -/
def vlayoutMaxXBound (st : LayoutStyle) : ℚ → List Child → ℚ
  | b, [] => b
  | b, c :: cs =>
      if c.automatic then
        vlayoutMaxXBound st (Max.max b (c.size.x + 2 * layoutChildXMargin st c)) cs
      else
        vlayoutMaxXBound st b cs

/-- Vertical pass of VerticalLayout.update (bad.py lines 414-422).
State is (current_gap, child_y); the returned list gives, per child, the
new y coordinate assigned to it (none for skipped non-automatic
children). -/
def placeChildrenY (st : LayoutStyle) : ℚ → ℚ → List Child → (ℚ × ℚ) × List (Option ℚ)
  | g, y, [] => ((g, y), [])
  | g, y, c :: cs =>
      if c.automatic then
        let g1 := Max.max g c.margin
        let y1 := y + g1
        let r := placeChildrenY st (Max.max st.gap c.margin) (y1 + c.size.y) cs
        (r.1, some y1 :: r.2)
      else
        let r := placeChildrenY st g y cs
        (r.1, none :: r.2)

/-- Write the vertical-pass result into a child: child.position.y =
child_y (bad.py line 420). -/
def setChildY (c : Child) (oy : Option ℚ) : Child :=
  match oy with
  | some yv => { c with pos := ⟨c.pos.x, yv⟩ }
  | none => c

/-- Horizontal alignment pass of VerticalLayout.update (bad.py lines
427-436); `width` is the layout width max_x_bound already stored in
self.size.x at line 411. -/
def alignChildX (st : LayoutStyle) (width : ℚ) (c : Child) : Child :=
  if c.automatic then
    match st.alignment with
    | LayoutAlignment.START =>
        { c with pos := ⟨layoutChildXMargin st c, c.pos.y⟩ }
    | LayoutAlignment.CENTER =>
        { c with pos := ⟨(width - c.size.x) / 2, c.pos.y⟩ }
    | LayoutAlignment.END =>
        { c with pos := ⟨width - layoutChildXMargin st c - c.size.x, c.pos.y⟩ }
  else c

/-- VerticalLayout.update (bad.py lines 402-440) on a layout of current
size `sz` with children `cs`: returns the new layout size and the
children with their positions updated. -/
def vlayoutUpdate (st : LayoutStyle) (sz : Vector2) (cs : List Child) :
    Vector2 × List Child :=
  let maxXBound := vlayoutMaxXBound st sz.x cs
  let placed := placeChildrenY st st.padding 0 cs
  let totalY := placed.1.2 + Max.max placed.1.1 st.padding
  let cs1 := List.zipWith (fun c oy => alignChildX st maxXBound (setChildY c oy)) cs placed.2
  (⟨maxXBound, totalY⟩, cs1)

/-- Child y-margin used by HorizontalLayout (bad.py lines 460 and 480). -/
def layoutChildYMargin (st : LayoutStyle) (c : Child) : ℚ :=
  Max.max c.margin st.padding

/-- Vertical pass of HorizontalLayout.update (bad.py lines 457-461). -/
def hlayoutMaxYBound (st : LayoutStyle) : ℚ → List Child → ℚ
  | b, [] => b
  | b, c :: cs =>
      if c.automatic then
        hlayoutMaxYBound st (Max.max b (c.size.y + 2 * layoutChildYMargin st c)) cs
      else
        hlayoutMaxYBound st b cs

/-- Horizontal pass of HorizontalLayout.update (bad.py lines 465-473). -/
def placeChildrenX (st : LayoutStyle) : ℚ → ℚ → List Child → (ℚ × ℚ) × List (Option ℚ)
  | g, x, [] => ((g, x), [])
  | g, x, c :: cs =>
      if c.automatic then
        let g1 := Max.max g c.margin
        let x1 := x + g1
        let r := placeChildrenX st (Max.max st.gap c.margin) (x1 + c.size.x) cs
        (r.1, some x1 :: r.2)
      else
        let r := placeChildrenX st g x cs
        (r.1, none :: r.2)

/-- Write the horizontal-pass result into a child (bad.py line 471). -/
def setChildX (c : Child) (ox : Option ℚ) : Child :=
  match ox with
  | some xv => { c with pos := ⟨xv, c.pos.y⟩ }
  | none => c

/-- Vertical alignment pass of HorizontalLayout.update (bad.py lines
478-487). -/
def alignChildY (st : LayoutStyle) (height : ℚ) (c : Child) : Child :=
  if c.automatic then
    match st.alignment with
    | LayoutAlignment.START =>
        { c with pos := ⟨c.pos.x, layoutChildYMargin st c⟩ }
    | LayoutAlignment.CENTER =>
        { c with pos := ⟨c.pos.x, (height - c.size.y) / 2⟩ }
    | LayoutAlignment.END =>
        { c with pos := ⟨c.pos.x, height - layoutChildYMargin st c - c.size.y⟩ }
  else c

/-- HorizontalLayout.update (bad.py lines 453-491). -/
def hlayoutUpdate (st : LayoutStyle) (sz : Vector2) (cs : List Child) :
    Vector2 × List Child :=
  let maxYBound := hlayoutMaxYBound st sz.y cs
  let placed := placeChildrenX st st.padding 0 cs
  let totalX := placed.1.2 + Max.max placed.1.1 st.padding
  let cs1 := List.zipWith (fun c ox => alignChildY st maxYBound (setChildX c ox)) cs placed.2
  (⟨totalX, maxYBound⟩, cs1)

/-- RelativeAnchor (bad.py lines 147-155): fractional reference, offset,
and current position. -/
structure RelAnchor where
  reference : Vector2
  offset : Vector2
  pos : Vector2
  deriving DecidableEq, Repr

/-- RelativeAnchor position recomputation performed inside
BoundedElement.update (bad.py line 193): position = reference * size +
offset, where `sz` is the owner's size at that moment. -/
def relAnchorUpdate (sz : Vector2) (a : RelAnchor) : RelAnchor :=
  { a with pos := (a.reference.mul sz).add a.offset }

/-- A layout attached to a container: its style, current size and
children (bad.py lines 197-206). -/
structure VLayoutElem where
  style : LayoutStyle
  size : Vector2
  children : List Child
  deriving DecidableEq, Repr

/-- A plain bounded direct child of a container: its size and style
margin.  Its own update() (a plain BoundedElement update) does not
change its size. -/
structure ChildElem where
  size : Vector2
  margin : ℚ
  deriving DecidableEq, Repr

/-- ContainerElement (bad.py lines 227-252): explicit size, owned
relative anchors, optional attached (vertical) layout and optional
direct child. -/
structure Container where
  size : Vector2
  anchors : List RelAnchor
  layout : Option VLayoutElem
  child : Option ChildElem
  deriving DecidableEq, Repr

/-- ContainerElement.update (bad.py lines 245-252).  It first runs
BoundedElement.update (line 246), which recomputes every RelativeAnchor
from the size current at that point (lines 188-193); then, if a layout
is attached, updates it and sets size = max(size, layout.size) +
2 * layout.style.margin (lines 247-249); then the same for a direct
child with its own margin (lines 250-252). -/
def containerUpdate (c : Container) : Container :=
  let anchors1 := c.anchors.map (relAnchorUpdate c.size)
  let lres : Option VLayoutElem × Vector2 :=
    match c.layout with
    | none => (none, c.size)
    | some L =>
        let r := vlayoutUpdate L.style L.size L.children
        (some { L with size := r.1, children := r.2 },
         (Vector2.max c.size r.1).addScalar (2 * L.style.margin))
  let size2 :=
    match c.child with
    | none => lres.2
    | some ch => (Vector2.max lres.2 ch.size).addScalar (2 * ch.margin)
  { size := size2, anchors := anchors1, layout := lres.1, child := c.child }

/-- Link endpoint anchor as Link.update sees it: its absolute position
and its direction (bad.py lines 517-518, 521). -/
structure LinkAnchor where
  pos : Vector2
  dir : AnchorDirection
  deriving DecidableEq, Repr

/-- LinkStyle (bad.py lines 495-499). -/
structure LinkStyle where
  margin : ℚ
  strokeWidth : ℚ
  strokeColor : String
  deriving DecidableEq, Repr

/-- Link (bad.py lines 501-512): optional endpoint anchors, style, and
the stored route points. -/
structure Link where
  start : Option LinkAnchor
  end_ : Option LinkAnchor
  style : LinkStyle
  points : List Vector2
  deriving DecidableEq, Repr

/-- Route computation of Link.update for resolved anchors (bad.py lines
517-541), translated literally: note that in the same-direction
non-HORIZONTAL branch the source appends points whose first component is
taken from the y coordinates (lines 534-535). -/
def routePoints (s e : LinkAnchor) : List Vector2 :=
  let sp := s.pos
  let ep := e.pos
  let middle : List Vector2 :=
    if s.dir = e.dir then
      if s.dir = AnchorDirection.HORIZONTAL then
        if sp.y = ep.y then []
        else
          let midPointX := (sp.x + ep.x) / 2
          [⟨midPointX, sp.y⟩, ⟨midPointX, ep.y⟩]
      else
        if sp.x = ep.x then []
        else
          let midPointY := (sp.y + ep.y) / 2
          [⟨sp.y, midPointY⟩, ⟨ep.y, midPointY⟩]
    else
      if s.dir = AnchorDirection.HORIZONTAL then
        [⟨ep.x, sp.y⟩]
      else
        [⟨sp.x, ep.y⟩]
  sp :: (middle ++ [ep])

/-- Link.update (bad.py lines 514-541): returns immediately when either
anchor is unset, otherwise replaces the stored points by the computed
route. -/
def linkUpdate (l : Link) : Link :=
  match l.start, l.end_ with
  | some s, some e => { l with points := routePoints s e }
  | _, _ => l

/-- Python str.rstrip() restricted to the space characters this renderer
produces (bad.py line 548). -/
def rstrip (s : String) : String :=
  String.mk ((s.data.reverse.dropWhile (fun ch => ch = ' ')).reverse)

/-- Link.draw (bad.py lines 543-550); the link's own position is the
zero vector set at construction (line 512), so points are emitted as
stored.  `fmt` renders a number the way Python string interpolation
would. -/
def linkDraw (fmt : ℚ → String) (l : Link) : String :=
  let pts := String.join (l.points.map (fun p => fmt p.x ++ "," ++ fmt p.y ++ " "))
  let svg := rstrip ("<polyline points=\"" ++ pts)
  svg ++ "\" style=\"stroke-width:" ++ fmt l.style.strokeWidth ++
    "; stroke:" ++ l.style.strokeColor ++ "; fill:none;\"/>"

/-- Font metrics (bad.py lines 331-335). -/
structure FontMetrics where
  ascent : ℚ
  descent : ℚ
  lineHeight : ℚ
  deriving DecidableEq, Repr

/-- get_font_metrics (bad.py lines 337-342): the PIL call
font.getmetrics() is the external metrics service, modelled by `raw`;
line_height = ascent + descent (line 340). -/
def getFontMetrics (raw : ℚ → ℚ × ℚ) (fontSize : ℚ) : FontMetrics :=
  let p := raw fontSize
  ⟨p.1, p.2, p.1 + p.2⟩

/-- Text element (bad.py lines 353-364): text, size, font size and the
cached wrapped lines. -/
structure TextElem where
  text : String
  size : Vector2
  fontSize : ℚ
  lines : List String
  deriving DecidableEq, Repr

/-- Text.update (bad.py lines 366-370): recompute the wrapped lines via
the external measurement collaborator `split` (split_text_to_width) and
set size.y = (len(lines) + 1) * line_height. -/
def textUpdate (split : String → ℚ → ℚ → List String) (raw : ℚ → ℚ × ℚ)
    (t : TextElem) : TextElem :=
  let lines := split t.text t.size.x t.fontSize
  let fm := getFontMetrics raw t.fontSize
  { t with lines := lines,
           size := ⟨t.size.x, ((lines.length : ℚ) + 1) * fm.lineHeight⟩ }

/-! ## Supporting lemmas -/

/-- One container growth step never decreases either component when the
margin is non-negative. -/
theorem containerGrowStep_le (s r : Vector2) (m : ℚ) (hm : 0 ≤ m) :
    s.x ≤ ((Vector2.max s r).addScalar (2 * m)).x ∧
    s.y ≤ ((Vector2.max s r).addScalar (2 * m)).y := by
  constructor <;> simp only [Vector2.max, Vector2.addScalar]
  · have := le_max_left s.x r.x
    linarith
  · have := le_max_left s.y r.y
    linarith

/-! ## Claims -/

/-- Claim C2 (code bug): with both anchors VERTICAL at absolute
positions (1,0) and (3,10), Link.update produces intermediate points
(0,5) and (10,5) — the x values are taken from the y coordinates of the
endpoints (bad.py lines 534-535) — instead of the symmetric dogleg
(1,5), (3,5); the segment from (1,0) to (0,5) is not axis-aligned. -/
theorem link_vertical_route_at_bug_input :
    routePoints ⟨⟨1, 0⟩, AnchorDirection.VERTICAL⟩ ⟨⟨3, 10⟩, AnchorDirection.VERTICAL⟩ =
      [⟨1, 0⟩, ⟨0, 5⟩, ⟨10, 5⟩, ⟨3, 10⟩] ∧
    routePoints ⟨⟨1, 0⟩, AnchorDirection.VERTICAL⟩ ⟨⟨3, 10⟩, AnchorDirection.VERTICAL⟩ ≠
      [⟨1, 0⟩, ⟨1, 5⟩, ⟨3, 5⟩, ⟨3, 10⟩] := by
  refine ⟨?_, ?_⟩ <;> simp [routePoints] <;> norm_num

/-- Claim C1 counterexample: a container with explicit size (40,40) and
a direct child of size (10,10) with margin 5.  The claim predicts
size = max((40,40), (10,10)+2·5) = (40,40); the code computes
max((40,40),(10,10)) + 2·5 = (50,50). -/
theorem container_growth_claim_counterexample :
    (containerUpdate ⟨⟨40, 40⟩, [], none, some ⟨⟨10, 10⟩, 5⟩⟩).size = ⟨50, 50⟩ ∧
    (containerUpdate ⟨⟨40, 40⟩, [], none, some ⟨⟨10, 10⟩, 5⟩⟩).size ≠
      Vector2.max ⟨40, 40⟩ (Vector2.addScalar ⟨10, 10⟩ (2 * 5)) := by
  refine ⟨?_, ?_⟩ <;>
    simp [containerUpdate, Vector2.max, Vector2.addScalar, max_def] <;> norm_num

/-- Claim C1 (amended): after ContainerElement.update the size equals
componentwise max(pre-update size, layout size) plus 2×layout margin
added to both components after the max, and likewise for a direct child
with its own margin; with non-negative margins the size never shrinks
below the explicit size. -/
theorem container_growth_formula :
    (∀ (sz : Vector2) (ancs : List RelAnchor) (L : VLayoutElem),
        (containerUpdate ⟨sz, ancs, some L, none⟩).size =
          (Vector2.max sz (vlayoutUpdate L.style L.size L.children).1).addScalar
            (2 * L.style.margin)) ∧
    (∀ (sz : Vector2) (ancs : List RelAnchor) (ch : ChildElem),
        (containerUpdate ⟨sz, ancs, none, some ch⟩).size =
          (Vector2.max sz ch.size).addScalar (2 * ch.margin)) ∧
    (∀ c : Container,
        (∀ L, c.layout = some L → 0 ≤ L.style.margin) →
        (∀ ch, c.child = some ch → 0 ≤ ch.margin) →
        c.size.x ≤ (containerUpdate c).size.x ∧ c.size.y ≤ (containerUpdate c).size.y) := by
  refine ⟨fun sz ancs L => rfl, fun sz ancs ch => rfl, fun c hL hch => ?_⟩
  obtain ⟨sz, ancs, lo, cho⟩ := c
  cases lo with
  | none =>
      cases cho with
      | none => exact ⟨le_refl _, le_refl _⟩
      | some ch =>
          exact containerGrowStep_le sz ch.size ch.margin (hch ch rfl)
  | some L =>
      have h1 := containerGrowStep_le sz (vlayoutUpdate L.style L.size L.children).1
        L.style.margin (hL L rfl)
      cases cho with
      | none => exact h1
      | some ch =>
          have h2 := containerGrowStep_le
            ((Vector2.max sz (vlayoutUpdate L.style L.size L.children).1).addScalar
              (2 * L.style.margin)) ch.size ch.margin (hch ch rfl)
          exact ⟨le_trans h1.1 h2.1, le_trans h1.2 h2.2⟩

/-- Claim C1 witness: the never-shrinks conjunct applied to a concrete
container. -/
theorem container_growth_formula_witness :
    (⟨40, 40⟩ : Vector2).x ≤ (containerUpdate ⟨⟨40, 40⟩, [], none, some ⟨⟨10, 10⟩, 5⟩⟩).size.x ∧
    (⟨40, 40⟩ : Vector2).y ≤ (containerUpdate ⟨⟨40, 40⟩, [], none, some ⟨⟨10, 10⟩, 5⟩⟩).size.y :=
  container_growth_formula.2.2 ⟨⟨40, 40⟩, [], none, some ⟨⟨10, 10⟩, 5⟩⟩
    (fun L hL => by cases hL) (fun ch hch => by cases hch; norm_num)

/-- Claim C3 counterexample: a container with explicit size (10,10), a
direct child of size (20,20) with margin 0 and one RelativeAnchor with
reference (1,1), offset (0,0).  After update the size is (20,20) but the
anchor position is (10,10): it was computed from the pre-update size. -/
theorem anchor_stale_counterexample :
    (containerUpdate ⟨⟨10, 10⟩, [⟨⟨1, 1⟩, ⟨0, 0⟩, ⟨0, 0⟩⟩], none, some ⟨⟨20, 20⟩, 0⟩⟩).size =
      ⟨20, 20⟩ ∧
    (containerUpdate ⟨⟨10, 10⟩, [⟨⟨1, 1⟩, ⟨0, 0⟩, ⟨0, 0⟩⟩], none,
        some ⟨⟨20, 20⟩, 0⟩⟩).anchors.map RelAnchor.pos = [⟨10, 10⟩] ∧
    ((⟨10, 10⟩ : Vector2) ≠ ⟨20, 20⟩) := by
  refine ⟨?_, ?_, ?_⟩ <;>
    simp [containerUpdate, relAnchorUpdate, Vector2.max, Vector2.addScalar,
      Vector2.mul, Vector2.add, max_def] <;> norm_num

/-- Claim C3 (amended): ContainerElement.update recomputes every
RelativeAnchor from the size the element had at entry to update(); the
anchors therefore match the post-update size only when the size is
unchanged by the call, e.g. when no layout and no child are attached. -/
theorem anchor_position_from_entry_size :
    (∀ c : Container,
        (containerUpdate c).anchors = c.anchors.map (relAnchorUpdate c.size)) ∧
    (∀ c : Container, c.layout = none → c.child = none →
        (containerUpdate c).anchors =
          c.anchors.map (relAnchorUpdate (containerUpdate c).size)) := by
  refine ⟨fun c => rfl, fun c h1 h2 => ?_⟩
  obtain ⟨sz, ancs, lo, cho⟩ := c
  cases lo with
  | some L => exact absurd h1 (by simp)
  | none =>
      cases cho with
      | some ch => exact absurd h2 (by simp)
      | none => rfl

/-- Claim C3 witness: both conjuncts applied to a concrete container. -/
theorem anchor_position_from_entry_size_witness :
    (containerUpdate ⟨⟨10, 10⟩, [⟨⟨1, 1⟩, ⟨0, 0⟩, ⟨0, 0⟩⟩], none, none⟩).anchors =
      [⟨⟨1, 1⟩, ⟨0, 0⟩, ⟨0, 0⟩⟩].map
        (relAnchorUpdate (containerUpdate ⟨⟨10, 10⟩, [⟨⟨1, 1⟩, ⟨0, 0⟩, ⟨0, 0⟩⟩],
          none, none⟩).size) :=
  anchor_position_from_entry_size.2 ⟨⟨10, 10⟩, [⟨⟨1, 1⟩, ⟨0, 0⟩, ⟨0, 0⟩⟩], none, none⟩ rfl rfl

/-- Claim C5 counterexample: with the measurement collaborator returning
two lines and metrics ascent 8 / descent 4 (line height 12), Text.update
sets the height to (2+1)·12 = 36, not 2·12 = 24. -/
theorem text_height_counterexample :
    (textUpdate (fun _ _ _ => ["a", "b"]) (fun _ => (8, 4))
        ⟨"hello", ⟨50, 0⟩, 10, []⟩).size.y = 36 ∧
    (textUpdate (fun _ _ _ => ["a", "b"]) (fun _ => (8, 4))
        ⟨"hello", ⟨50, 0⟩, 10, []⟩).size.y ≠ (2 : ℚ) * 12 := by
  refine ⟨?_, ?_⟩ <;> simp [textUpdate, getFontMetrics] <;> norm_num

/-- Claim C5 (amended): Text.update sets the element's height to
(number of wrapped lines + 1) × line height, where line height =
ascent + descent from the metrics service. -/
theorem text_height_formula :
    ∀ (split : String → ℚ → ℚ → List String) (raw : ℚ → ℚ × ℚ) (t : TextElem),
      (textUpdate split raw t).size.y =
        (((split t.text t.size.x t.fontSize).length : ℚ) + 1) *
          ((raw t.fontSize).1 + (raw t.fontSize).2) :=
  fun split raw t => rfl

/-- Claim C6 counterexample: VerticalLayout with padding 5, gap 5,
alignment START and one automatic child of height 20 and margin 0 places
the child at (5,5) — the START inset is max(margin, padding) = 5 — not
at (0,5) as claimed; the height is 30 as claimed. -/
theorem vertical_layout_example_counterexample :
    (vlayoutUpdate ⟨0, 5, 5, LayoutAlignment.START⟩ ⟨0, 0⟩
        [⟨⟨10, 20⟩, 0, true, ⟨0, 0⟩⟩]).1.y = 30 ∧
    (vlayoutUpdate ⟨0, 5, 5, LayoutAlignment.START⟩ ⟨0, 0⟩
        [⟨⟨10, 20⟩, 0, true, ⟨0, 0⟩⟩]).2.map Child.pos ≠ [⟨0, 5⟩] := by
  refine ⟨?_, ?_⟩ <;>
    simp [vlayoutUpdate, vlayoutMaxXBound, placeChildrenY, layoutChildXMargin,
      alignChildX, setChildY, max_def] <;> norm_num

/-- Claim C6 (amended): for that configuration the layout height is
5+20+5 = 30 and the child is placed at (5,5), the x inset being
max(child margin, layout padding) = max(0,5) = 5. -/
theorem vertical_layout_example_amended :
    vlayoutUpdate ⟨0, 5, 5, LayoutAlignment.START⟩ ⟨0, 0⟩
        [⟨⟨10, 20⟩, 0, true, ⟨0, 0⟩⟩] =
      (⟨20, 30⟩, [⟨⟨10, 20⟩, 0, true, ⟨5, 5⟩⟩]) := by
  simp [vlayoutUpdate, vlayoutMaxXBound, placeChildrenY, layoutChildXMargin,
    alignChildX, setChildY, Prod.ext_iff, Vector2.mk.injEq, max_def]
  norm_num

/-- Claim C9: if either endpoint anchor is unset, Link.update leaves the
link (in particular its stored route points) unchanged, and Link.draw on
a link with no points emits a near-empty polyline primitive. -/
theorem link_unset_anchor_noop :
    (∀ l : Link, l.start = none ∨ l.end_ = none → linkUpdate l = l) ∧
    (∀ (fmt : ℚ → String) (l : Link), l.points = [] →
        linkDraw fmt l =
          "<polyline points=\"\" style=\"stroke-width:" ++ fmt l.style.strokeWidth ++
            "; stroke:" ++ l.style.strokeColor ++ "; fill:none;\"/>") := by
  constructor
  · intro l h
    obtain ⟨so, eo, st, pts⟩ := l
    cases h with
    | inl h => simp only at h; subst h; rfl
    | inr h =>
        simp only at h
        subst h
        cases so <;> rfl
  · intro fmt l h
    obtain ⟨so, eo, st, pts⟩ := l
    simp only at h
    subst h
    rfl

/-- Claim C9 witness: both conjuncts at concrete links. -/
theorem link_unset_anchor_noop_witness :
    linkUpdate ⟨none, some ⟨⟨0, 0⟩, AnchorDirection.NONE⟩, ⟨5, 1, "red"⟩, []⟩ =
      ⟨none, some ⟨⟨0, 0⟩, AnchorDirection.NONE⟩, ⟨5, 1, "red"⟩, []⟩ ∧
    linkDraw (fun _ => "1") ⟨none, none, ⟨5, 1, "red"⟩, []⟩ =
      "<polyline points=\"\" style=\"stroke-width:" ++ "1" ++
        "; stroke:" ++ "red" ++ "; fill:none;\"/>" :=
  ⟨link_unset_anchor_noop.1 _ (Or.inl rfl), link_unset_anchor_noop.2 _ _ rfl⟩

/-- Claim C10: a link whose anchors both have direction NONE is routed
exactly like a pair of VERTICAL anchors: equal x gives the direct
two-point route, and unequal x inserts two intermediate points between
start and end. -/
theorem link_none_direction_routing :
    ∀ sp ep : Vector2,
      routePoints ⟨sp, AnchorDirection.NONE⟩ ⟨ep, AnchorDirection.NONE⟩ =
        routePoints ⟨sp, AnchorDirection.VERTICAL⟩ ⟨ep, AnchorDirection.VERTICAL⟩ ∧
      (sp.x = ep.x →
        routePoints ⟨sp, AnchorDirection.NONE⟩ ⟨ep, AnchorDirection.NONE⟩ = [sp, ep]) ∧
      (sp.x ≠ ep.x → ∃ p q : Vector2,
        routePoints ⟨sp, AnchorDirection.NONE⟩ ⟨ep, AnchorDirection.NONE⟩ =
          [sp, p, q, ep]) := by
  intro sp ep
  refine ⟨by simp [routePoints], fun h => by simp [routePoints, h], fun h => ?_⟩
  exact ⟨⟨sp.y, (sp.y + ep.y) / 2⟩, ⟨ep.y, (sp.y + ep.y) / 2⟩,
    by simp [routePoints, h]⟩

/-- Claim C10 witness: the equal-x and unequal-x conclusions at concrete
positions. -/
theorem link_none_direction_routing_witness :
    routePoints ⟨⟨0, 0⟩, AnchorDirection.NONE⟩ ⟨⟨0, 4⟩, AnchorDirection.NONE⟩ =
      [⟨0, 0⟩, ⟨0, 4⟩] ∧
    (∃ p q : Vector2,
      routePoints ⟨⟨0, 0⟩, AnchorDirection.NONE⟩ ⟨⟨2, 4⟩, AnchorDirection.NONE⟩ =
        [⟨0, 0⟩, p, q, ⟨2, 4⟩]) :=
  ⟨(link_none_direction_routing ⟨0, 0⟩ ⟨0, 4⟩).2.1 rfl,
   (link_none_direction_routing ⟨0, 0⟩ ⟨2, 4⟩).2.2 (by norm_num)⟩

/-! ## Layout infrastructure lemmas -/

/-- The fields of a child that the layout computations read: automatic
flag, margin and size.  The layout passes only write positions. -/
def childData (c : Child) : Bool × ℚ × Vector2 := (c.automatic, c.margin, c.size)

theorem childData_setChildY (c : Child) (oy : Option ℚ) :
    childData (setChildY c oy) = childData c := by
  cases oy <;> rfl

theorem childData_alignChildX (st : LayoutStyle) (w : ℚ) (c : Child) :
    childData (alignChildX st w c) = childData c := by
  cases hc : c.automatic <;> cases hal : st.alignment <;>
    simp [alignChildX, hc, hal, childData]

theorem posY_alignChildX (st : LayoutStyle) (w : ℚ) (c : Child) :
    (alignChildX st w c).pos.y = c.pos.y := by
  cases hc : c.automatic <;> cases hal : st.alignment <;>
    simp [alignChildX, hc, hal]

theorem vlayoutMaxXBound_congr (st : LayoutStyle) :
    ∀ {cs cs' : List Child}, cs.map childData = cs'.map childData →
      ∀ b, vlayoutMaxXBound st b cs = vlayoutMaxXBound st b cs' := by
  intro cs
  induction cs with
  | nil =>
      intro cs' h b
      cases cs' with
      | nil => rfl
      | cons d ds => simp at h
  | cons c cs ih =>
      intro cs' h b
      cases cs' with
      | nil => simp at h
      | cons d ds =>
          simp only [List.map_cons, List.cons.injEq] at h
          obtain ⟨h1, h2⟩ := h
          have hauto : c.automatic = d.automatic := congrArg (fun p => p.1) h1
          have hmar : c.margin = d.margin := congrArg (fun p => p.2.1) h1
          have hsz : c.size = d.size := congrArg (fun p => p.2.2) h1
          cases hc : c.automatic with
          | false =>
              simp only [vlayoutMaxXBound, hc, ← hauto, Bool.false_eq_true, if_false]
              exact ih h2 b
          | true =>
              simp only [vlayoutMaxXBound, layoutChildXMargin, hc, ← hauto, ← hmar,
                ← hsz, if_true]
              exact ih h2 _

theorem vlayoutMaxXBound_le (st : LayoutStyle) :
    ∀ (cs : List Child) (b : ℚ), b ≤ vlayoutMaxXBound st b cs := by
  intro cs
  induction cs with
  | nil => intro b; exact le_refl b
  | cons c cs ih =>
      intro b
      cases hc : c.automatic with
      | false => simpa [vlayoutMaxXBound, hc] using ih b
      | true =>
          simp only [vlayoutMaxXBound, hc, if_true]
          exact le_trans (le_max_left _ _) (ih _)

theorem vlayoutMaxXBound_idem (st : LayoutStyle) :
    ∀ (cs : List Child) (b : ℚ),
      vlayoutMaxXBound st (vlayoutMaxXBound st b cs) cs = vlayoutMaxXBound st b cs := by
  intro cs
  induction cs with
  | nil => intro b; rfl
  | cons c cs ih =>
      intro b
      cases hc : c.automatic with
      | false =>
          simp only [vlayoutMaxXBound, hc, Bool.false_eq_true, if_false]
          exact ih b
      | true =>
          simp only [vlayoutMaxXBound, hc, if_true]
          have ht : c.size.x + 2 * layoutChildXMargin st c ≤
              vlayoutMaxXBound st (Max.max b (c.size.x + 2 * layoutChildXMargin st c)) cs :=
            le_trans (le_max_right _ _) (vlayoutMaxXBound_le st cs _)
          rw [max_eq_left ht]
          exact ih _

theorem placeChildrenY_congr (st : LayoutStyle) :
    ∀ {cs cs' : List Child}, cs.map childData = cs'.map childData →
      ∀ g y, placeChildrenY st g y cs = placeChildrenY st g y cs' := by
  intro cs
  induction cs with
  | nil =>
      intro cs' h g y
      cases cs' with
      | nil => rfl
      | cons d ds => simp at h
  | cons c cs ih =>
      intro cs' h g y
      cases cs' with
      | nil => simp at h
      | cons d ds =>
          simp only [List.map_cons, List.cons.injEq] at h
          obtain ⟨h1, h2⟩ := h
          have hauto : c.automatic = d.automatic := congrArg (fun p => p.1) h1
          have hmar : c.margin = d.margin := congrArg (fun p => p.2.1) h1
          have hsz : c.size = d.size := congrArg (fun p => p.2.2) h1
          cases hc : c.automatic with
          | false =>
              simp only [placeChildrenY, hc, ← hauto, Bool.false_eq_true, if_false]
              rw [ih h2]
          | true =>
              simp only [placeChildrenY, hc, ← hauto, ← hmar, ← hsz, if_true]
              rw [ih h2]

theorem placeChildrenY_length (st : LayoutStyle) :
    ∀ (cs : List Child) (g y : ℚ), ((placeChildrenY st g y cs).2).length = cs.length := by
  intro cs
  induction cs with
  | nil => intro g y; rfl
  | cons c cs ih =>
      intro g y
      cases hc : c.automatic with
      | false => simp [placeChildrenY, hc, ih]
      | true => simp [placeChildrenY, hc, ih]

theorem map_childData_zipWith (st : LayoutStyle) (w : ℚ) :
    ∀ (cs : List Child) (oys : List (Option ℚ)), cs.length = oys.length →
      (List.zipWith (fun c oy => alignChildX st w (setChildY c oy)) cs oys).map childData =
        cs.map childData := by
  intro cs
  induction cs with
  | nil => intro oys h; rfl
  | cons c cs ih =>
      intro oys h
      cases oys with
      | nil => simp at h
      | cons oy oys =>
          simp only [List.zipWith_cons_cons, List.map_cons, List.cons.injEq]
          refine ⟨?_, ih oys (by simpa using h)⟩
          rw [childData_alignChildX, childData_setChildY]

theorem align_set_idem (st : LayoutStyle) (w : ℚ) (c : Child) (oy : Option ℚ) :
    alignChildX st w (setChildY (alignChildX st w (setChildY c oy)) oy) =
      alignChildX st w (setChildY c oy) := by
  obtain ⟨⟨sx, sy⟩, m, auto, ⟨px, py⟩⟩ := c
  obtain ⟨mar, pad, gap, al⟩ := st
  cases auto <;> cases oy <;> cases al <;> rfl

theorem zipWith_align_set_idem (st : LayoutStyle) (w : ℚ) :
    ∀ (cs : List Child) (oys : List (Option ℚ)),
      List.zipWith (fun c oy => alignChildX st w (setChildY c oy))
          (List.zipWith (fun c oy => alignChildX st w (setChildY c oy)) cs oys) oys =
        List.zipWith (fun c oy => alignChildX st w (setChildY c oy)) cs oys := by
  intro cs
  induction cs with
  | nil => intro oys; rfl
  | cons c cs ih =>
      intro oys
      cases oys with
      | nil => rfl
      | cons oy oys =>
          simp only [List.zipWith_cons_cons]
          rw [align_set_idem, ih]

/-- VerticalLayout.update is idempotent: running it again on its own
output (layout size and updated children) changes nothing. -/
theorem vlayoutUpdate_idem (st : LayoutStyle) (sz : Vector2) (cs : List Child) :
    vlayoutUpdate st (vlayoutUpdate st sz cs).1 (vlayoutUpdate st sz cs).2 =
      vlayoutUpdate st sz cs := by
  have hlen : cs.length = ((placeChildrenY st st.padding 0 cs).2).length :=
    (placeChildrenY_length st cs st.padding 0).symm
  have hdata :
      (List.zipWith (fun c oy => alignChildX st (vlayoutMaxXBound st sz.x cs) (setChildY c oy))
          cs (placeChildrenY st st.padding 0 cs).2).map childData = cs.map childData :=
    map_childData_zipWith st _ cs _ hlen
  simp only [vlayoutUpdate]
  rw [vlayoutMaxXBound_congr st hdata, vlayoutMaxXBound_idem,
    placeChildrenY_congr st hdata, zipWith_align_set_idem]

theorem Vector2.addScalar_zero (v : Vector2) : v.addScalar 0 = v := by
  cases v
  simp [Vector2.addScalar]

theorem Vector2.max_absorb (a b : Vector2) :
    Vector2.max (Vector2.max a b) b = Vector2.max a b := by
  cases a
  cases b
  simp [Vector2.max, max_assoc]

theorem rat_max_rot (a b c : ℚ) :
    Max.max (Max.max a b) c = Max.max (Max.max a c) b := by
  rw [max_assoc, max_assoc, max_comm b c]

theorem Vector2.max_rot (a b c : Vector2) :
    Vector2.max (Vector2.max a b) c = Vector2.max (Vector2.max a c) b := by
  cases a
  cases b
  cases c
  simp only [Vector2.max, Vector2.mk.injEq]
  exact ⟨rat_max_rot _ _ _, rat_max_rot _ _ _⟩

/-- ContainerElement.update is idempotent when there are no anchors and
every attached margin is zero: the second call reproduces the first
call's output. -/
theorem containerUpdate_idem_zero (c : Container) (h0 : c.anchors = [])
    (hL : ∀ L, c.layout = some L → L.style.margin = 0)
    (hch : ∀ ch, c.child = some ch → ch.margin = 0) :
    containerUpdate (containerUpdate c) = containerUpdate c := by
  obtain ⟨sz, ancs, lo, cho⟩ := c
  simp only at h0
  subst h0
  cases lo with
  | none =>
      cases cho with
      | none => rfl
      | some ch =>
          have hm : ch.margin = 0 := hch ch rfl
          simp [containerUpdate, hm, Vector2.addScalar_zero, Vector2.max_absorb]
  | some L =>
      have hm : L.style.margin = 0 := hL L rfl
      cases cho with
      | none =>
          simp [containerUpdate, hm, Vector2.addScalar_zero, vlayoutUpdate_idem,
            Vector2.max_absorb]
      | some ch =>
          have hm2 : ch.margin = 0 := hch ch rfl
          simp only [containerUpdate, hm, hm2, mul_zero, Vector2.addScalar_zero,
            vlayoutUpdate_idem]
          rw [Vector2.max_rot (Vector2.max sz (vlayoutUpdate L.style L.size L.children).1)]
          simp [Vector2.max_absorb]

/-- Claim C4 counterexample: a container with a direct child of size
(4,4) and margin 5 has size (14,14) after one update() and (24,24) after
a second update(): each call adds 2×margin, so update() is not
idempotent. -/
theorem update_not_idempotent_counterexample :
    containerUpdate (containerUpdate ⟨⟨0, 0⟩, [], none, some ⟨⟨4, 4⟩, 5⟩⟩) ≠
      containerUpdate ⟨⟨0, 0⟩, [], none, some ⟨⟨4, 4⟩, 5⟩⟩ ∧
    (containerUpdate (containerUpdate ⟨⟨0, 0⟩, [], none, some ⟨⟨4, 4⟩, 5⟩⟩)).size =
      ⟨24, 24⟩ ∧
    (containerUpdate ⟨⟨0, 0⟩, [], none, some ⟨⟨4, 4⟩, 5⟩⟩).size = ⟨14, 14⟩ := by
  refine ⟨?_, ?_, ?_⟩ <;>
    simp [containerUpdate, Vector2.max, Vector2.addScalar, max_def,
      Container.mk.injEq, Vector2.mk.injEq] <;> norm_num

/-- Claim C4 (amended): VerticalLayout.update is idempotent, but
ContainerElement.update is not in general — each call adds 2×margin to
the size for an attached layout or child — so a second update() is a
no-op only when the relevant margins are zero (and anchor positions have
already settled, e.g. no anchors). -/
theorem update_idempotent_amended :
    (∀ (st : LayoutStyle) (sz : Vector2) (cs : List Child),
        vlayoutUpdate st (vlayoutUpdate st sz cs).1 (vlayoutUpdate st sz cs).2 =
          vlayoutUpdate st sz cs) ∧
    (∀ c : Container, c.anchors = [] →
        (∀ L, c.layout = some L → L.style.margin = 0) →
        (∀ ch, c.child = some ch → ch.margin = 0) →
        containerUpdate (containerUpdate c) = containerUpdate c) :=
  ⟨fun st sz cs => vlayoutUpdate_idem st sz cs,
   fun c h0 hL hch => containerUpdate_idem_zero c h0 hL hch⟩

/-- Claim C4 witness: idempotence at a concrete zero-margin container
with an attached layout. -/
theorem update_idempotent_amended_witness :
    containerUpdate (containerUpdate ⟨⟨0, 0⟩, [],
        some ⟨⟨0, 5, 5, LayoutAlignment.START⟩, ⟨10, 10⟩, []⟩, none⟩) =
      containerUpdate ⟨⟨0, 0⟩, [],
        some ⟨⟨0, 5, 5, LayoutAlignment.START⟩, ⟨10, 10⟩, []⟩, none⟩ :=
  update_idempotent_amended.2 _ rfl
    (fun L hL => by cases hL; rfl)
    (fun ch hch => by cases hch)

/-! ## Axis duality -/

theorem Child.swap_swap (c : Child) : c.swap.swap = c := by
  obtain ⟨⟨a, b⟩, m, au, ⟨p, q⟩⟩ := c
  rfl

theorem zipWith_congr_fun {α β γ : Type} {f g : α → β → γ}
    (h : ∀ a b, f a b = g a b) :
    ∀ (l : List α) (l' : List β), List.zipWith f l l' = List.zipWith g l l' := by
  intro l
  induction l with
  | nil => intro l'; rfl
  | cons a l ih =>
      intro l'
      cases l' with
      | nil => rfl
      | cons b l' => simp only [List.zipWith_cons_cons, h, ih]

theorem hlayoutMaxYBound_dual (st : LayoutStyle) :
    ∀ (cs : List Child) (b : ℚ),
      hlayoutMaxYBound st b cs = vlayoutMaxXBound st b (cs.map Child.swap) := by
  intro cs
  induction cs with
  | nil => intro b; rfl
  | cons c cs ih =>
      intro b
      cases hc : c.automatic with
      | false =>
          simp [hlayoutMaxYBound, vlayoutMaxXBound, Child.swap, hc, ih]
      | true =>
          simp [hlayoutMaxYBound, vlayoutMaxXBound, Child.swap, Vector2.swap,
            layoutChildXMargin, layoutChildYMargin, hc, ih]

theorem placeChildrenX_dual (st : LayoutStyle) :
    ∀ (cs : List Child) (g x : ℚ),
      placeChildrenX st g x cs = placeChildrenY st g x (cs.map Child.swap) := by
  intro cs
  induction cs with
  | nil => intro g x; rfl
  | cons c cs ih =>
      intro g x
      cases hc : c.automatic with
      | false =>
          simp [placeChildrenX, placeChildrenY, Child.swap, hc, ih]
      | true =>
          simp [placeChildrenX, placeChildrenY, Child.swap, Vector2.swap, hc, ih]

theorem setChildX_dual (c : Child) (ox : Option ℚ) :
    setChildX c ox = Child.swap (setChildY (Child.swap c) ox) := by
  obtain ⟨⟨a, b⟩, m, au, ⟨p, q⟩⟩ := c
  cases ox <;> rfl

theorem alignChildY_dual (st : LayoutStyle) (h : ℚ) (c : Child) :
    alignChildY st h c = Child.swap (alignChildX st h (Child.swap c)) := by
  obtain ⟨⟨a, b⟩, m, au, ⟨p, q⟩⟩ := c
  obtain ⟨mar, pad, gap, al⟩ := st
  cases au <;> cases al <;> rfl

/-- Claim C7: HorizontalLayout.update is the axis-swapped dual of
VerticalLayout.update — for identical children and configuration it
produces exactly the vertical result with the x and y components of the
layout size and of every child size and position exchanged. -/
theorem horizontal_vertical_duality :
    ∀ (st : LayoutStyle) (sz : Vector2) (cs : List Child),
      hlayoutUpdate st sz cs =
        ((vlayoutUpdate st sz.swap (cs.map Child.swap)).1.swap,
         (vlayoutUpdate st sz.swap (cs.map Child.swap)).2.map Child.swap) := by
  intro st sz cs
  have hpoint : ∀ (c : Child) (ox : Option ℚ),
      alignChildY st (hlayoutMaxYBound st sz.y cs) (setChildX c ox) =
        Child.swap (alignChildX st (hlayoutMaxYBound st sz.y cs)
          (setChildY (Child.swap c) ox)) := by
    intro c ox
    rw [alignChildY_dual, setChildX_dual, Child.swap_swap]
  simp only [hlayoutUpdate, vlayoutUpdate, Vector2.swap, List.map_zipWith,
    List.zipWith_map_left]
  rw [← hlayoutMaxYBound_dual, ← placeChildrenX_dual]
  exact Prod.ext rfl (zipWith_congr_fun hpoint cs _)

/-! ## Main-axis spacing -/

theorem getElem?_zipWith_my {α β γ : Type} (f : α → β → γ) :
    ∀ (as : List α) (bs : List β) (i : ℕ),
      (List.zipWith f as bs)[i]? =
        match as[i]?, bs[i]? with
        | some a, some b => some (f a b)
        | _, _ => none := by
  intro as
  induction as with
  | nil => intro bs i; simp
  | cons a as ih =>
      intro bs i
      cases bs with
      | nil => simp
      | cons b bs =>
          cases i with
          | zero => simp
          | succ n => simpa using ih bs n

/-- The placement loop of VerticalLayout.update processes an appended
child list by threading its (current_gap, child_y) state. -/
theorem placeChildrenY_append (st : LayoutStyle) :
    ∀ (l1 l2 : List Child) (g y : ℚ),
      placeChildrenY st g y (l1 ++ l2) =
        ((placeChildrenY st (placeChildrenY st g y l1).1.1
            (placeChildrenY st g y l1).1.2 l2).1,
         (placeChildrenY st g y l1).2 ++
           (placeChildrenY st (placeChildrenY st g y l1).1.1
             (placeChildrenY st g y l1).1.2 l2).2) := by
  intro l1
  induction l1 with
  | nil => intro l2 g y; rfl
  | cons c l1 ih =>
      intro l2 g y
      cases hc : c.automatic with
      | true =>
          simp only [List.cons_append, placeChildrenY, hc, if_true, List.append_eq]
          rw [ih]
      | false =>
          simp only [List.cons_append, placeChildrenY, hc, Bool.false_eq_true, if_false,
            List.append_eq]
          rw [ih]

/-- Claim C8: in VerticalLayout.update, the vertical distance between
the bottom of one automatic child and the top of the next automatic
child equals max(layout gap, first child's margin, second child's
margin): margins never reduce spacing and the larger neighboring value
wins regardless of which child owns it. -/
theorem layout_consecutive_spacing :
    ∀ (st : LayoutStyle) (sz : Vector2) (pre post : List Child) (c1 c2 : Child),
      c1.automatic = true → c2.automatic = true →
      ∃ d1 d2 : Child,
        (vlayoutUpdate st sz (pre ++ c1 :: c2 :: post)).2[pre.length]? = some d1 ∧
        (vlayoutUpdate st sz (pre ++ c1 :: c2 :: post)).2[pre.length + 1]? = some d2 ∧
        d2.pos.y - (d1.pos.y + c1.size.y) =
          Max.max st.gap (Max.max c1.margin c2.margin) := by
  intro st sz pre post c1 c2 h1 h2
  set cs := pre ++ c1 :: c2 :: post with hcs
  set M := vlayoutMaxXBound st sz.x cs with hM
  set g0 := (placeChildrenY st st.padding 0 pre).1.1 with hg0
  set y0 := (placeChildrenY st st.padding 0 pre).1.2 with hy0
  set y1 := y0 + Max.max g0 c1.margin with hy1
  set y2 := y1 + c1.size.y + Max.max (Max.max st.gap c1.margin) c2.margin with hy2
  have htail : (placeChildrenY st g0 y0 (c1 :: c2 :: post)).2 =
      some y1 :: some y2 ::
        (placeChildrenY st (Max.max st.gap c2.margin) (y2 + c2.size.y) post).2 := by
    simp only [placeChildrenY, h1, h2, if_true, hy1, hy2]
  have hlen1 : ((placeChildrenY st st.padding 0 pre).2).length = pre.length :=
    placeChildrenY_length st pre st.padding 0
  have hsnd : (placeChildrenY st st.padding 0 cs).2 =
      (placeChildrenY st st.padding 0 pre).2 ++
        (some y1 :: some y2 ::
          (placeChildrenY st (Max.max st.gap c2.margin) (y2 + c2.size.y) post).2) := by
    rw [hcs, placeChildrenY_append st pre (c1 :: c2 :: post) st.padding 0]
    rw [← hg0, ← hy0, htail]
  have hchildren : (vlayoutUpdate st sz cs).2 =
      List.zipWith (fun c oy => alignChildX st M (setChildY c oy)) cs
        (placeChildrenY st st.padding 0 cs).2 := rfl
  have hcs1 : cs[pre.length]? = some c1 := by
    rw [hcs, List.getElem?_append_right (le_refl pre.length)]
    simp
  have hcs2 : cs[pre.length + 1]? = some c2 := by
    rw [hcs, List.getElem?_append_right (Nat.le_succ_of_le (le_refl pre.length))]
    simp
  have hoy1 : ((placeChildrenY st st.padding 0 cs).2)[pre.length]? = some (some y1) := by
    rw [hsnd, List.getElem?_append_right (le_of_eq hlen1), hlen1]
    simp
  have hoy2 : ((placeChildrenY st st.padding 0 cs).2)[pre.length + 1]? = some (some y2) := by
    rw [hsnd, List.getElem?_append_right (Nat.le_succ_of_le (le_of_eq hlen1)), hlen1]
    simp
  refine ⟨alignChildX st M (setChildY c1 (some y1)),
    alignChildX st M (setChildY c2 (some y2)), ?_, ?_, ?_⟩
  · rw [hchildren, getElem?_zipWith_my, hcs1, hoy1]
  · rw [hchildren, getElem?_zipWith_my, hcs2, hoy2]
  · rw [posY_alignChildX, posY_alignChildX]
    have hpy1 : (setChildY c1 (some y1)).pos.y = y1 := rfl
    have hpy2 : (setChildY c2 (some y2)).pos.y = y2 := rfl
    rw [hpy1, hpy2, hy2, max_assoc]
    ring

/-- Claim C8 witness: two automatic children with margins 10 and 2 under
layout gap 5 are spaced max(5, max(10, 2)) = 10 apart. -/
theorem layout_consecutive_spacing_witness :
    ∃ d1 d2 : Child,
      (vlayoutUpdate ⟨0, 5, 5, LayoutAlignment.START⟩ ⟨0, 0⟩
          [⟨⟨1, 7⟩, 10, true, ⟨0, 0⟩⟩, ⟨⟨1, 3⟩, 2, true, ⟨0, 0⟩⟩]).2[(0 : ℕ)]? = some d1 ∧
      (vlayoutUpdate ⟨0, 5, 5, LayoutAlignment.START⟩ ⟨0, 0⟩
          [⟨⟨1, 7⟩, 10, true, ⟨0, 0⟩⟩, ⟨⟨1, 3⟩, 2, true, ⟨0, 0⟩⟩]).2[(1 : ℕ)]? = some d2 ∧
      d2.pos.y - (d1.pos.y + 7) = Max.max 5 (Max.max 10 2) :=
  layout_consecutive_spacing ⟨0, 5, 5, LayoutAlignment.START⟩ ⟨0, 0⟩ [] []
    ⟨⟨1, 7⟩, 10, true, ⟨0, 0⟩⟩ ⟨⟨1, 3⟩, 2, true, ⟨0, 0⟩⟩ rfl rfl
